import Mathlib

/-!
# Snowfall: the particle model of `snow.cpp`

A shallow embedding of the simulation core of `snow.cpp`: `Vector2`, the
`Snowflake` particle (constructor, `applyForce`, `update`) and the wind block
of the main loop.

Conventions of the embedding.

* `float` arithmetic is read exactly, in an arbitrary linearly ordered field
  `α` (`ℚ` to evaluate, `ℝ` for the trigonometric scenario).  The library
  function `sin` is a parameter of `update`.
* `int` values are mathematical integers; `%` is the truncating `Int.tmod`.
* `rand()` is a stream of non-negative values with a cursor (`Rand`).
* `SDL_GetCurrentDisplayMode` is external; what it answers is an argument
  (`DisplayQuery`).
* `rand() % screenWidth` with `screenWidth = 0` has no value in C: `update`
  returns `none` there and `some` everywhere else.
-/

namespace Snow

/-- A 2D vector, `struct Vector2`. -/
structure Vector2 (α : Type) where
  x : α
  y : α
deriving DecidableEq, Repr

namespace Vector2

variable {α : Type} [LinearOrderedField α]

/-- Member `operator+`. -/
def add (v other : Vector2 α) : Vector2 α :=
  ⟨v.x + other.x, v.y + other.y⟩

/-- Member `operator*` (by a scalar). -/
def mul (v : Vector2 α) (scalar : α) : Vector2 α :=
  ⟨v.x * scalar, v.y * scalar⟩

/-- Member `operator+=`: the receiver after `x += other.x; y += other.y`. -/
def addAssign (v other : Vector2 α) : Vector2 α :=
  ⟨v.x + other.x, v.y + other.y⟩

end Vector2

/-- Fallback width, `const float defaultWidth = 1600`, as the `int` it is
converted to when assigned to `screenWidth`. -/
def defaultWidth : Int := 1600

/-- Fallback height, `const float defaultHeight = 1200`, as the `int` it is
converted to when assigned to `screenHeight`. -/
def defaultHeight : Int := 1200

/-- What one call of `SDL_GetCurrentDisplayMode(0, &displayMode)` answers: its
return code and the `w`, `h` fields it leaves in `displayMode`. -/
structure DisplayQuery where
  status : Int
  w : Int
  h : Int
deriving DecidableEq, Repr

/-- The function `getDisplayResolution`: `none` stands for `return false` (the
out-parameters are left alone), `some (screenWidth, screenHeight)` for
`return true`. -/
def getDisplayResolution (q : DisplayQuery) : Option (Int × Int) :=
  if q.status ≠ 0 then none else some (q.w, q.h)

/-- The pair `(screenWidth, screenHeight)` that `update` works with (source
lines 67-71): the display resolution, or the defaults when it is unavailable. -/
def viewport (q : DisplayQuery) : Int × Int :=
  match getDisplayResolution q with
  | some p => p
  | none => (defaultWidth, defaultHeight)

/-- State of the generator behind `rand()`: the values it is going to return
(each a non-negative `int`) and how many of them were taken so far. -/
structure Rand where
  draws : Nat → Nat
  taken : Nat

/-- One call of `rand()`: the value returned and the generator afterwards. -/
def rand (g : Rand) : Int × Rand :=
  ((g.draws g.taken : Nat), ⟨g.draws, g.taken + 1⟩)

/-- A snowflake, `struct Snowflake`. -/
structure Snowflake (α : Type) where
  position : Vector2 α
  velocity : Vector2 α
  acceleration : Vector2 α
  size : α
  oscillationOffset : α
  depth : α
deriving DecidableEq, Repr

/-- The wind variables of `main`: `windForce` and `windChangeTimer`. -/
structure Wind (α : Type) where
  windForce : α
  windChangeTimer : Int
deriving DecidableEq, Repr

section Model

variable {α : Type} [LinearOrderedField α]

/-- The constructor `Snowflake::Snowflake(float x, float y)` (source lines
47-54); it takes five values from `rand()`, in the order of the statements. -/
def Snowflake.construct (x y : α) (g : Rand) : Snowflake α × Rand :=
  let (r1, g) := rand g
  let (r2, g) := rand g
  let (r3, g) := rand g
  let (r4, g) := rand g
  let (r5, g) := rand g
  ({ position := ⟨x, y⟩
     velocity := ⟨((r1.tmod 2 - 1 : Int) : α), ((r2.tmod 2 + 1 : Int) : α)⟩
     acceleration := ⟨0, 0⟩
     size := ((r3.tmod 3 + 6 : Int) : α)
     oscillationOffset := ((r4.tmod 360 : Int) : α)
     depth := ((r5.tmod 100 + 1 : Int) : α) / 10.0 }, g)

/-- The method `Snowflake::applyForce` (source lines 56-58). -/
def Snowflake.applyForce (s : Snowflake α) (force : Vector2 α) : Snowflake α :=
  { s with acceleration := s.acceleration.addAssign force }

/-- Source lines 61-65 of `update`: `velocity.x` is recomputed from wind and
oscillation, `velocity.y` integrates the accumulated acceleration, the position
is advanced and the accumulator is cleared. -/
def Snowflake.integrate (sin : α → α) (deltaTime windForce : α) (s : Snowflake α) :
    Snowflake α :=
  let oscillation := sin ((s.position.y + s.oscillationOffset) * 0.02) * 1.5
  let velocity : Vector2 α :=
    ⟨windForce + oscillation, s.velocity.y + s.acceleration.y * deltaTime * (1.0 / s.depth)⟩
  { s with
    velocity := velocity
    position := s.position.addAssign (velocity.mul deltaTime)
    acceleration := ⟨0, 0⟩ }

/-- Source lines 73-77 of `update`, the vertical wrap.  The three values of
`rand()` are taken only when the flake is below the bottom edge; the result is
`none` when `rand() % screenWidth` is evaluated with `screenWidth = 0`. -/
def Snowflake.recycle (screenWidth screenHeight : Int) (s : Snowflake α) (g : Rand) :
    Option (Snowflake α × Rand) :=
  if s.position.y > (screenHeight : α) then
    if screenWidth = 0 then none
    else
      let (r1, g) := rand g
      let (r2, g) := rand g
      let (r3, g) := rand g
      some ({ s with
              position := ⟨((r1.tmod screenWidth : Int) : α), 0⟩
              velocity := ⟨((r2.tmod 3 - 1 : Int) : α), ((r3.tmod 3 + 1 : Int) : α)⟩ }, g)
  else some (s, g)

/-- Source lines 79-84 of `update`, the horizontal wrap with
`horizontalOffset = 50`. -/
def Snowflake.wrap (screenWidth : Int) (s : Snowflake α) : Snowflake α :=
  let horizontalOffset : Int := 50
  if s.position.x < ((-horizontalOffset : Int) : α) then
    { s with position := ⟨((screenWidth + horizontalOffset : Int) : α), s.position.y⟩ }
  else if s.position.x > ((screenWidth + horizontalOffset : Int) : α) then
    { s with position := ⟨((-horizontalOffset : Int) : α), s.position.y⟩ }
  else s

/-- The method `Snowflake::update(float deltaTime, float windForce)` (source
lines 60-85). -/
def Snowflake.update (sin : α → α) (q : DisplayQuery) (deltaTime windForce : α)
    (s : Snowflake α) (g : Rand) : Option (Snowflake α × Rand) :=
  let s := s.integrate sin deltaTime windForce
  let screenWidth := (viewport q).1
  let screenHeight := (viewport q).2
  match s.recycle screenWidth screenHeight g with
  | none => none
  | some (s, g) => some (s.wrap screenWidth, g)

/-- The wind block of the main loop (source lines 136-140). -/
def windUpdate (w : Wind α) (g : Rand) : Wind α × Rand :=
  let windChangeTimer := w.windChangeTimer + 1
  if windChangeTimer > 180 then
    let (r1, g) := rand g
    let windForce : α := ((r1.tmod 200 - 100 : Int) : α) / 200.0
    let (r2, g) := rand g
    (⟨if r2.tmod 5 = 0 then windForce * 4 else windForce, 0⟩, g)
  else (⟨w.windForce, windChangeTimer⟩, g)

/-- The wind block executed `n` times in a row on one generator. -/
def windUpdates : Nat → Wind α → Rand → Wind α × Rand
  | 0, w, g => (w, g)
  | n + 1, w, g => windUpdate (windUpdates n w g).1 (windUpdates n w g).2

/-- One call on a snowflake: `applyForce` with its force, or `update` with
its arguments, the display answer and the generator state it meets. -/
inductive Call (α : Type) where
  | applyForce (force : Vector2 α)
  | update (q : DisplayQuery) (deltaTime windForce : α) (g : Rand)

/-- The snowflake after one call (`none` when `update` has no result). -/
def Snowflake.call (sin : α → α) (s : Snowflake α) : Call α → Option (Snowflake α)
  | .applyForce force => some (s.applyForce force)
  | .update q deltaTime windForce g =>
      (s.update sin q deltaTime windForce g).map Prod.fst

/-- The snowflake after a sequence of calls, first call first. -/
def Snowflake.calls (sin : α → α) (s : Snowflake α) : List (Call α) → Option (Snowflake α)
  | [] => some s
  | c :: cs => (s.call sin c).bind (fun s1 => Snowflake.calls sin s1 cs)

/-- What one snowflake meets in one pass of the loop of source lines 142-147:
the gravity constant, the time step and wind passed to `update`, the display
answer and the generator state at that moment.  In `main` the gravity is
`0.005` and the time step `1.0`. -/
structure Tick (α : Type) where
  gravity : α
  deltaTime : α
  windForce : α
  query : DisplayQuery
  rng : Rand

/-- The body of the loop of source lines 143-147 for one snowflake:
`flake.applyForce({0, gravity}); flake.update(deltaTime, windForce)`. -/
def Snowflake.tick (sin : α → α) (s : Snowflake α) (t : Tick α) :
    Option (Snowflake α × Rand) :=
  (s.applyForce ⟨0, t.gravity⟩).update sin t.query t.deltaTime t.windForce t.rng

/-- The snowflake after a sequence of loop passes, first pass first. -/
def Snowflake.ticks (sin : α → α) (s : Snowflake α) : List (Tick α) → Option (Snowflake α)
  | [] => some s
  | t :: ts => ((s.tick sin t).map Prod.fst).bind (fun s1 => Snowflake.ticks sin s1 ts)

end Model

section Verification

variable {α : Type} [LinearOrderedField α]

/-- The remainder of a value of `rand()` is non-negative. -/
theorem tmod_natCast_nonneg (r : Nat) (m : Int) : 0 ≤ (r : Int).tmod m :=
  Int.tmod_nonneg m (Int.ofNat_nonneg r)

/-- The remainder of a value of `rand()` by a positive modulus is below it. -/
theorem tmod_natCast_lt (r : Nat) {m : Int} (hm : 0 < m) : (r : Int).tmod m < m :=
  Int.tmod_lt_of_pos _ hm

/-- First component of a known viewport. -/
theorem viewport_fst {q : DisplayQuery} {W H : Int} (hq : viewport q = (W, H)) :
    (viewport q).1 = W := by rw [hq]

/-- Second component of a known viewport. -/
theorem viewport_snd {q : DisplayQuery} {W H : Int} (hq : viewport q = (W, H)) :
    (viewport q).2 = H := by rw [hq]

/-- Without a vertical wrap, `update` is integration followed by the
horizontal wrap, and the generator is left alone. -/
theorem update_of_not_below (sin : α → α) (q : DisplayQuery) (deltaTime windForce : α)
    (s : Snowflake α) (g : Rand)
    (h : ¬ (s.integrate sin deltaTime windForce).position.y > (((viewport q).2 : Int) : α)) :
    s.update sin q deltaTime windForce g
      = some ((s.integrate sin deltaTime windForce).wrap (viewport q).1, g) := by
  simp only [Snowflake.update, Snowflake.recycle, if_neg h]

/-- With a vertical wrap on a viewport of non-zero width, `update` recycles
the flake with three values of `rand()` and then applies the horizontal wrap. -/
theorem update_of_below (sin : α → α) (q : DisplayQuery) (deltaTime windForce : α)
    (s : Snowflake α) (g : Rand)
    (h : (s.integrate sin deltaTime windForce).position.y > (((viewport q).2 : Int) : α))
    (hW : (viewport q).1 ≠ 0) :
    s.update sin q deltaTime windForce g
      = some (Snowflake.wrap (viewport q).1
          { s.integrate sin deltaTime windForce with
            position := ⟨((((g.draws g.taken : Nat) : Int).tmod (viewport q).1 : Int) : α), 0⟩
            velocity := ⟨((((g.draws (g.taken + 1) : Nat) : Int).tmod 3 - 1 : Int) : α),
                         ((((g.draws (g.taken + 2) : Nat) : Int).tmod 3 + 1 : Int) : α)⟩ },
          ⟨g.draws, g.taken + 3⟩) := by
  simp only [Snowflake.update, Snowflake.recycle, if_pos h, if_neg hW, rand]

/-- The function `update` has a result unless it recycles on a viewport of width zero. -/
theorem update_isSome (sin : α → α) (q : DisplayQuery) (deltaTime windForce : α)
    (s : Snowflake α) (g : Rand) (hW : (viewport q).1 ≠ 0) :
    ∃ s1 g1, s.update sin q deltaTime windForce g = some (s1, g1) := by
  by_cases h : (s.integrate sin deltaTime windForce).position.y > (((viewport q).2 : Int) : α)
  · exact ⟨_, _, update_of_below sin q deltaTime windForce s g h hW⟩
  · exact ⟨_, _, update_of_not_below sin q deltaTime windForce s g h⟩

/-- The horizontal wrap leaves `position.y` alone. -/
theorem wrap_position_y (W : Int) (s : Snowflake α) : (s.wrap W).position.y = s.position.y := by
  simp only [Snowflake.wrap]
  split_ifs <;> rfl

/-- The horizontal wrap does nothing to a flake inside the band. -/
theorem wrap_of_inside (W : Int) (s : Snowflake α) (h1 : -50 ≤ s.position.x)
    (h2 : s.position.x ≤ (W : α) + 50) : s.wrap W = s := by
  simp only [Snowflake.wrap]
  have h1' : ¬ s.position.x < (((-50 : Int)) : α) := by push_cast; exact not_lt.mpr h1
  have h2' : ¬ s.position.x > (((W + 50 : Int)) : α) := by push_cast; exact not_lt.mpr h2
  simp only [if_neg h1', if_neg h2']

/-- C1 (vertical wrap).  On a viewport of width `W > 0` and height `H`, for
every wind, every `deltaTime ≥ 0`, every generator state and every flake with
`depth > 0`, `velocity.y ≥ 0`, `acceleration.y ≥ 0` and `position.y = H + 1`, one
`update` returns with `position.y = 0` and `0 ≤ position.x < W`; `position.x`
is the value `rand() % W` written by the recycling, which the horizontal wrap
that runs afterwards does not move. -/
theorem vertical_wrap (sin : α → α) (q : DisplayQuery) (W H : Int)
    (hq : viewport q = (W, H)) (hW : 0 < W) (deltaTime windForce : α) (hdt : 0 ≤ deltaTime)
    (s : Snowflake α) (g : Rand) (hdepth : 0 < s.depth) (hv : 0 ≤ s.velocity.y)
    (ha : 0 ≤ s.acceleration.y) (hy : s.position.y = (H : α) + 1) :
    ∃ s1 g1, s.update sin q deltaTime windForce g = some (s1, g1) ∧
      s1.position.y = 0 ∧ 0 ≤ s1.position.x ∧ s1.position.x < (W : α) ∧
      s1.position.x = ((((g.draws g.taken : Nat) : Int).tmod W : Int) : α) := by
  have hW1 := viewport_fst hq
  have hH1 := viewport_snd hq
  have hvy : 0 ≤ s.velocity.y + s.acceleration.y * deltaTime * (1.0 / s.depth) := by
    have : 0 ≤ (1.0 : α) / s.depth := by
      apply div_nonneg _ hdepth.le
      norm_num
    positivity
  have hbelow : (s.integrate sin deltaTime windForce).position.y > (((viewport q).2 : Int) : α) := by
    rw [hH1]
    simp only [Snowflake.integrate, Vector2.addAssign, Vector2.mul, hy]
    have := mul_nonneg hvy hdt
    linarith
  have hne : (viewport q).1 ≠ 0 := by rw [hW1]; exact hW.ne'
  have hx0 : (0 : α) ≤ ((((g.draws g.taken : Nat) : Int).tmod W : Int) : α) := by
    exact_mod_cast tmod_natCast_nonneg _ W
  have hx1 : ((((g.draws g.taken : Nat) : Int).tmod W : Int) : α) < (W : α) := by
    exact_mod_cast tmod_natCast_lt _ hW
  refine ⟨_, _, update_of_below sin q deltaTime windForce s g hbelow hne, ?_⟩
  rw [hW1, wrap_of_inside]
  · exact ⟨rfl, hx0, hx1, rfl⟩
  · show (-50 : α) ≤ _
    linarith
  · show _ ≤ (W : α) + 50
    linarith

/-- After the horizontal wrap the flake is inside the band `[-50, W + 50]`. -/
theorem wrap_bounds (W : Int) (hW : 1 ≤ W) (s : Snowflake α) :
    -50 ≤ (s.wrap W).position.x ∧ (s.wrap W).position.x ≤ (W : α) + 50 := by
  have hWα : (1 : α) ≤ (W : α) := by exact_mod_cast hW
  simp only [Snowflake.wrap]
  split_ifs with h1 h2
  · push_cast
    constructor <;> linarith
  · push_cast
    constructor <;> linarith
  · push_cast at h1 h2
    exact ⟨not_lt.mp h1, not_lt.mp h2⟩

/-- C9 (looping band).  On a viewport of width `W ≥ 1` and height `H ≥ 0`, for
every flake whatsoever (whatever its position, velocity, accumulator and
depth), every `deltaTime`, wind and generator state, one `update` returns with
`-50 ≤ position.x ≤ W + 50` and `position.y ≤ H`. -/
theorem looping_band (sin : α → α) (q : DisplayQuery) (W H : Int)
    (hq : viewport q = (W, H)) (hW : 1 ≤ W) (hH : 0 ≤ H) (deltaTime windForce : α)
    (s : Snowflake α) (g : Rand) :
    ∃ s1 g1, s.update sin q deltaTime windForce g = some (s1, g1) ∧
      -50 ≤ s1.position.x ∧ s1.position.x ≤ (W : α) + 50 ∧ s1.position.y ≤ (H : α) := by
  have hW1 := viewport_fst hq
  have hH1 := viewport_snd hq
  have hHα : (0 : α) ≤ (H : α) := by exact_mod_cast hH
  by_cases h : (s.integrate sin deltaTime windForce).position.y > (((viewport q).2 : Int) : α)
  · have hne : (viewport q).1 ≠ 0 := by rw [hW1]; omega
    refine ⟨_, _, update_of_below sin q deltaTime windForce s g h hne, ?_⟩
    rw [hW1]
    refine ⟨(wrap_bounds W hW _).1, (wrap_bounds W hW _).2, ?_⟩
    rw [wrap_position_y]
    exact hHα
  · refine ⟨_, _, update_of_not_below sin q deltaTime windForce s g h, ?_⟩
    rw [hW1]
    refine ⟨(wrap_bounds W hW _).1, (wrap_bounds W hW _).2, ?_⟩
    rw [wrap_position_y]
    rw [hH1] at h
    exact not_lt.mp h

/-- The horizontal wrap changes nothing but `position.x`. -/
theorem wrap_fields (W : Int) (s : Snowflake α) :
    (s.wrap W).velocity = s.velocity ∧ (s.wrap W).acceleration = s.acceleration ∧
      (s.wrap W).size = s.size ∧ (s.wrap W).oscillationOffset = s.oscillationOffset ∧
      (s.wrap W).depth = s.depth := by
  simp only [Snowflake.wrap]
  split_ifs <;> exact ⟨rfl, rfl, rfl, rfl, rfl⟩

/-- The two ways in which `update` produces a result. -/
theorem update_cases (sin : α → α) (q : DisplayQuery) (deltaTime windForce : α)
    (s : Snowflake α) (g : Rand) (s1 : Snowflake α) (g1 : Rand)
    (h : s.update sin q deltaTime windForce g = some (s1, g1)) :
    (¬ (s.integrate sin deltaTime windForce).position.y > (((viewport q).2 : Int) : α) ∧
        s1 = (s.integrate sin deltaTime windForce).wrap (viewport q).1 ∧ g1 = g) ∨
      ((s.integrate sin deltaTime windForce).position.y > (((viewport q).2 : Int) : α) ∧
        (viewport q).1 ≠ 0 ∧
        s1 = Snowflake.wrap (viewport q).1
          { s.integrate sin deltaTime windForce with
            position := ⟨((((g.draws g.taken : Nat) : Int).tmod (viewport q).1 : Int) : α), 0⟩
            velocity := ⟨((((g.draws (g.taken + 1) : Nat) : Int).tmod 3 - 1 : Int) : α),
                         ((((g.draws (g.taken + 2) : Nat) : Int).tmod 3 + 1 : Int) : α)⟩ } ∧
        g1 = ⟨g.draws, g.taken + 3⟩) := by
  by_cases hb : (s.integrate sin deltaTime windForce).position.y > (((viewport q).2 : Int) : α)
  · right
    by_cases hW : (viewport q).1 = 0
    · simp [Snowflake.update, Snowflake.recycle, hb, hW] at h
    · rw [update_of_below sin q deltaTime windForce s g hb hW] at h
      simp only [Option.some.injEq, Prod.mk.injEq] at h
      exact ⟨hb, hW, h.1.symm, h.2.symm⟩
  · left
    rw [update_of_not_below sin q deltaTime windForce s g hb] at h
    simp only [Option.some.injEq, Prod.mk.injEq] at h
    exact ⟨hb, h.1.symm, h.2.symm⟩

/-- Whenever `update` returns, the accumulator is `(0, 0)`. -/
theorem update_acceleration (sin : α → α) (q : DisplayQuery) (deltaTime windForce : α)
    (s : Snowflake α) (g : Rand) (s1 : Snowflake α) (g1 : Rand)
    (h : s.update sin q deltaTime windForce g = some (s1, g1)) :
    s1.acceleration = ⟨0, 0⟩ := by
  rcases update_cases sin q deltaTime windForce s g s1 g1 h with ⟨_, hs, _⟩ | ⟨_, _, hs, _⟩ <;>
    rw [hs, (wrap_fields _ _).2.1] <;> rfl

/-- Whenever `update` returns, `size`, `oscillationOffset` and `depth` are unchanged. -/
theorem update_fixed (sin : α → α) (q : DisplayQuery) (deltaTime windForce : α)
    (s : Snowflake α) (g : Rand) (s1 : Snowflake α) (g1 : Rand)
    (h : s.update sin q deltaTime windForce g = some (s1, g1)) :
    s1.size = s.size ∧ s1.oscillationOffset = s.oscillationOffset ∧ s1.depth = s.depth := by
  rcases update_cases sin q deltaTime windForce s g s1 g1 h with ⟨_, hs, _⟩ | ⟨_, _, hs, _⟩ <;>
    rw [hs, (wrap_fields _ _).2.2.1, (wrap_fields _ _).2.2.2.1, (wrap_fields _ _).2.2.2.2] <;>
    exact ⟨rfl, rfl, rfl⟩

/-- C5 (force accumulator reset).  After any finite sequence of `applyForce`
calls, whenever the following `update` returns (it does on every viewport of
non-zero width), the acceleration is exactly `(0, 0)`; this covers the paths
without wrap, with vertical wrap and with horizontal wrap alike. -/
theorem accumulator_reset (sin : α → α) (q : DisplayQuery) (deltaTime windForce : α)
    (s : Snowflake α) (forces : List (Vector2 α)) (g : Rand) :
    ((viewport q).1 ≠ 0 →
        ∃ s1 g1, (forces.foldl Snowflake.applyForce s).update sin q deltaTime windForce g
          = some (s1, g1)) ∧
      ∀ s1 g1, (forces.foldl Snowflake.applyForce s).update sin q deltaTime windForce g
          = some (s1, g1) → s1.acceleration = ⟨0, 0⟩ :=
  ⟨fun hW => update_isSome sin q deltaTime windForce _ g hW,
   fun s1 g1 h => update_acceleration sin q deltaTime windForce _ g s1 g1 h⟩

/-- The depth given by the constructor, in terms of the fifth value of `rand()`. -/
theorem construct_depth (x y : α) (g : Rand) :
    (Snowflake.construct x y g).1.depth
      = (((((g.draws (g.taken + 4) : Nat) : Int).tmod 100 + 1 : Int)) : α) / 10 := by
  simp only [Snowflake.construct, rand]
  norm_num

/-- The depth given by the constructor is `k / 10` with `1 ≤ k ≤ 100`. -/
theorem construct_depth_range (x y : α) (g : Rand) :
    ∃ k : Int, 1 ≤ k ∧ k ≤ 100 ∧ (Snowflake.construct x y g).1.depth = (k : α) / 10 ∧
      0 < (Snowflake.construct x y g).1.depth ∧ (Snowflake.construct x y g).1.depth ≤ 10 := by
  have h0 := tmod_natCast_nonneg (g.draws (g.taken + 4)) 100
  have h1 := tmod_natCast_lt (g.draws (g.taken + 4)) (show (0 : Int) < 100 by norm_num)
  have hk1 : (1 : Int) ≤ ((g.draws (g.taken + 4) : Nat) : Int).tmod 100 + 1 := by omega
  have hk2 : ((g.draws (g.taken + 4) : Nat) : Int).tmod 100 + 1 ≤ 100 := by omega
  have hk1α : (1 : α) ≤ ((((g.draws (g.taken + 4) : Nat) : Int).tmod 100 + 1 : Int) : α) := by
    exact_mod_cast hk1
  have hk2α : ((((g.draws (g.taken + 4) : Nat) : Int).tmod 100 + 1 : Int) : α) ≤ 100 := by
    exact_mod_cast hk2
  refine ⟨_, hk1, hk2, construct_depth x y g, ?_, ?_⟩
  · rw [construct_depth]
    apply div_pos <;> linarith
  · rw [construct_depth, div_le_iff₀ (by norm_num)]
    linarith

/-- No call changes `depth`. -/
theorem call_depth (sin : α → α) (s : Snowflake α) (c : Call α) (s1 : Snowflake α)
    (h : s.call sin c = some s1) : s1.depth = s.depth := by
  cases c with
  | applyForce force =>
    simp only [Snowflake.call, Option.some.injEq] at h
    rw [← h]
    rfl
  | update q deltaTime windForce g =>
    simp only [Snowflake.call, Option.map_eq_some', Prod.exists, exists_and_right,
      exists_eq_right] at h
    obtain ⟨g1, hg1⟩ := h
    exact (update_fixed sin q deltaTime windForce s g s1 g1 hg1).2.2

/-- No sequence of calls changes `depth`. -/
theorem calls_depth (sin : α → α) (cs : List (Call α)) :
    ∀ (s s1 : Snowflake α), s.calls sin cs = some s1 → s1.depth = s.depth := by
  induction cs with
  | nil =>
    intro s s1 h
    simp only [Snowflake.calls, Option.some.injEq] at h
    rw [h]
  | cons c cs ih =>
    intro s s1 h
    simp only [Snowflake.calls, Option.bind_eq_some] at h
    obtain ⟨s2, h2, h3⟩ := h
    rw [ih s2 s1 h3, call_depth sin s c s2 h2]

/-- C6 (depth invariant).  The constructor yields `depth = k / 10` for an
integer `1 ≤ k ≤ 100`, so `0 < depth ≤ 10`; `applyForce` and `update` (vertical
wrap included) leave `depth` unchanged; hence after any sequence of calls on a
constructed flake `depth` is still the constructed one, positive and non-zero,
and `1 / depth` in `update` never divides by zero. -/
theorem depth_invariant (sin : α → α) :
    (∀ (x y : α) (g : Rand), ∃ k : Int, 1 ≤ k ∧ k ≤ 100 ∧
        (Snowflake.construct x y g).1.depth = (k : α) / 10 ∧
        0 < (Snowflake.construct x y g).1.depth ∧ (Snowflake.construct x y g).1.depth ≤ 10) ∧
    (∀ (s : Snowflake α) (force : Vector2 α), (s.applyForce force).depth = s.depth) ∧
    (∀ (q : DisplayQuery) (deltaTime windForce : α) (s : Snowflake α) (g : Rand)
        (s1 : Snowflake α) (g1 : Rand),
        s.update sin q deltaTime windForce g = some (s1, g1) → s1.depth = s.depth) ∧
    (∀ (x y : α) (g : Rand) (cs : List (Call α)) (s1 : Snowflake α),
        (Snowflake.construct x y g).1.calls sin cs = some s1 →
        s1.depth = (Snowflake.construct x y g).1.depth ∧ 0 < s1.depth ∧ s1.depth ≠ 0) := by
  refine ⟨construct_depth_range, fun _ _ => rfl, ?_, ?_⟩
  · intro q deltaTime windForce s g s1 g1 h
    exact (update_fixed sin q deltaTime windForce s g s1 g1 h).2.2
  · intro x y g cs s1 h
    have hd := calls_depth sin cs _ s1 h
    obtain ⟨_, _, _, _, hpos, _⟩ := construct_depth_range x y g
    rw [← hd] at hpos
    exact ⟨hd, hpos, hpos.ne'⟩

/-- The integration step does not read `velocity.x` nor `acceleration.x`. -/
theorem integrate_congr (sin : α → α) (deltaTime windForce : α) (s1 s2 : Snowflake α)
    (hp : s1.position = s2.position) (hvy : s1.velocity.y = s2.velocity.y)
    (hay : s1.acceleration.y = s2.acceleration.y) (hs : s1.size = s2.size)
    (ho : s1.oscillationOffset = s2.oscillationOffset) (hd : s1.depth = s2.depth) :
    s1.integrate sin deltaTime windForce = s2.integrate sin deltaTime windForce := by
  simp only [Snowflake.integrate, hp, hvy, hay, hs, ho, hd]

/-- C7 (horizontal force is decorative).  Two flakes that agree on position,
`velocity.y`, `acceleration.y`, size, oscillation offset and depth (and differ
at will in `velocity.x` and `acceleration.x`) have the same outcome of `update`
under the same arguments, viewport and generator; without a vertical wrap the
new `velocity.x` is `windForce + sin((position.y + oscillationOffset) * 0.02) * 1.5`
and the new `velocity.y` is `velocity.y + acceleration.y * deltaTime / depth`. -/
theorem horizontal_force_decorative (sin : α → α) (q : DisplayQuery) (deltaTime windForce : α)
    (s1 s2 : Snowflake α) (g : Rand)
    (hp : s1.position = s2.position) (hvy : s1.velocity.y = s2.velocity.y)
    (hay : s1.acceleration.y = s2.acceleration.y) (hs : s1.size = s2.size)
    (ho : s1.oscillationOffset = s2.oscillationOffset) (hd : s1.depth = s2.depth) :
    s1.update sin q deltaTime windForce g = s2.update sin q deltaTime windForce g ∧
      (¬ (s1.integrate sin deltaTime windForce).position.y > (((viewport q).2 : Int) : α) →
        ∃ r g1, s1.update sin q deltaTime windForce g = some (r, g1) ∧
          r.velocity.x
            = windForce + sin ((s1.position.y + s1.oscillationOffset) * 0.02) * 1.5 ∧
          r.velocity.y = s1.velocity.y + s1.acceleration.y * deltaTime / s1.depth) := by
  constructor
  · simp only [Snowflake.update,
      integrate_congr sin deltaTime windForce s1 s2 hp hvy hay hs ho hd]
  · intro h
    refine ⟨_, _, update_of_not_below sin q deltaTime windForce s1 g h, ?_, ?_⟩
    · rw [(wrap_fields _ _).1]
      rfl
    · rw [(wrap_fields _ _).1]
      have one : (1.0 : α) = 1 := by norm_num
      simp only [Snowflake.integrate, one, mul_one_div]

/-- The resampled wind `((r mod 200) - 100) / 200` lies in `[-0.5, 0.5]`. -/
theorem wind_value_bounds (r : Nat) :
    (-0.5 : α) ≤ ((((r % 200 : Nat) : α)) - 100) / 200 ∧
      ((((r % 200 : Nat) : α)) - 100) / 200 ≤ (0.5 : α) := by
  have h1 : (r % 200 : Nat) < 200 := Nat.mod_lt _ (by norm_num)
  have h1α : (((r % 200 : Nat)) : α) < 200 := by exact_mod_cast h1
  have h0α : (0 : α) ≤ (((r % 200 : Nat)) : α) := Nat.cast_nonneg _
  have e1 : (-0.5 : α) * 200 = -100 := by norm_num
  have e2 : (0.5 : α) * 200 = 100 := by norm_num
  constructor
  · rw [le_div_iff₀ (by norm_num), e1]
    linarith
  · rw [div_le_iff₀ (by norm_num), e2]
    linarith

/-- On non-negative operands the truncating remainder is the natural-number one. -/
theorem tmod_natCast (r m : Nat) : ((r : Nat) : Int).tmod (m : Int) = ((r % m : Nat) : Int) := by
  rw [Int.tmod_eq_emod (Int.ofNat_nonneg r) (Int.ofNat_nonneg m)]
  norm_cast

/-- A holding execution of the wind block: the counter advances, the wind and
the generator are left alone. -/
theorem windUpdate_holding (w : Wind α) (g : Rand) (h : w.windChangeTimer + 1 ≤ 180) :
    windUpdate w g = (⟨w.windForce, w.windChangeTimer + 1⟩, g) := by
  have h1 : ¬ w.windChangeTimer + 1 > 180 := by omega
  simp only [windUpdate, if_neg h1]

/-- A changing execution of the wind block: the counter is reset, the wind is
resampled from the next random value and multiplied by four when the one after
it is a multiple of five. -/
theorem windUpdate_changing (w : Wind α) (g : Rand) (h : ¬ w.windChangeTimer + 1 ≤ 180) :
    windUpdate w g
      = (⟨if g.draws (g.taken + 1) % 5 = 0
            then 4 * ((((g.draws g.taken % 200 : Nat) : α) - 100) / 200)
            else (((g.draws g.taken % 200 : Nat) : α) - 100) / 200, 0⟩,
         ⟨g.draws, g.taken + 2⟩) := by
  have h1 : w.windChangeTimer + 1 > 180 := by omega
  have e1 := tmod_natCast (g.draws g.taken) 200
  have e2 := tmod_natCast (g.draws (g.taken + 1)) 5
  simp only [Nat.cast_ofNat] at e1 e2
  simp only [windUpdate, if_pos h1, rand, e1, e2]
  congr 2
  norm_cast
  split_ifs <;> push_cast <;> ring

/-- C8 (wind state machine step).  One execution of the wind block on the
state `(w, t)`: when `t + 1 ≤ 180` it yields `(w, t + 1)` and takes no random
value; otherwise it yields counter `0` and wind `v`, or `4 * v` when the second
random value is a multiple of 5, where `v = ((r1 mod 200) - 100) / 200` for the
first random value `r1`; and `-0.5 ≤ v ≤ 0.5`. -/
theorem wind_step (w : Wind α) (g : Rand) :
    (w.windChangeTimer + 1 ≤ 180 →
        windUpdate w g = (⟨w.windForce, w.windChangeTimer + 1⟩, g)) ∧
      (¬ w.windChangeTimer + 1 ≤ 180 →
        windUpdate w g
          = (⟨if g.draws (g.taken + 1) % 5 = 0
                then 4 * ((((g.draws g.taken % 200 : Nat) : α) - 100) / 200)
                else (((g.draws g.taken % 200 : Nat) : α) - 100) / 200, 0⟩,
             ⟨g.draws, g.taken + 2⟩)) ∧
      (-0.5 : α) ≤ (((g.draws g.taken % 200 : Nat) : α) - 100) / 200 ∧
      (((g.draws g.taken % 200 : Nat) : α) - 100) / 200 ≤ (0.5 : α) :=
  ⟨windUpdate_holding w g, windUpdate_changing w g, wind_value_bounds _⟩

/-- From a counter of zero, the first 180 executions of the wind block only count. -/
theorem windUpdates_holding (w0 : α) (g : Rand) :
    ∀ n : Nat, n ≤ 180 → windUpdates n (⟨w0, 0⟩ : Wind α) g = (⟨w0, (n : Int)⟩, g) := by
  intro n
  induction n with
  | zero => intro _; rfl
  | succ n ih =>
    intro hn
    have hn' : ¬ ((n : Int) + 1 > 180) := by omega
    simp only [windUpdates, ih (by omega), windUpdate, if_neg hn']
    push_cast
    rfl

/-- A wind value of `[-0.5, 0.5]`, multiplied by four or not, lies in `[-2, 2]`. -/
theorem gust_bounds (v : α) (h1 : (-0.5 : α) ≤ v) (h2 : v ≤ (0.5 : α)) (b : Prop)
    [Decidable b] : (-2.0 : α) ≤ (if b then 4 * v else v) ∧ (if b then 4 * v else v) ≤ (2.0 : α) := by
  have e1 : (-0.5 : α) = -(1 / 2) := by norm_num
  have e2 : (0.5 : α) = 1 / 2 := by norm_num
  have e3 : (-2.0 : α) = -2 := by norm_num
  have e4 : (2.0 : α) = 2 := by norm_num
  rw [e1] at h1
  rw [e2] at h2
  rw [e3, e4]
  clear e1 e2 e3 e4
  split_ifs
  · constructor <;> linarith
  · constructor <;> linarith

/-- C4 (wind cycle).  From a counter of `0` and any initial wind, for every
generator state: each of the first 180 executions of the wind block only
counts (after `n ≤ 180` of them the counter is `n`, wind and generator are
untouched), the 181st resets the counter to `0` taking two random values, and
the wind after it lies in `[-2.0, 2.0]`. -/
theorem wind_cycle (w0 : α) (g : Rand) :
    (∀ n : Nat, n ≤ 180 → windUpdates n (⟨w0, 0⟩ : Wind α) g = (⟨w0, (n : Int)⟩, g)) ∧
      (windUpdates 181 (⟨w0, 0⟩ : Wind α) g).1.windChangeTimer = 0 ∧
      (windUpdates 181 (⟨w0, 0⟩ : Wind α) g).2 = ⟨g.draws, g.taken + 2⟩ ∧
      -2.0 ≤ (windUpdates 181 (⟨w0, 0⟩ : Wind α) g).1.windForce ∧
      (windUpdates 181 (⟨w0, 0⟩ : Wind α) g).1.windForce ≤ 2.0 := by
  have hstep : windUpdates 181 (⟨w0, 0⟩ : Wind α) g
      = windUpdate (⟨w0, 180⟩ : Wind α) g := by
    show windUpdate (windUpdates 180 (⟨w0, 0⟩ : Wind α) g).1
        (windUpdates 180 (⟨w0, 0⟩ : Wind α) g).2 = _
    rw [windUpdates_holding w0 g 180 (le_refl _)]
    rfl
  have hchange := windUpdate_changing (⟨w0, 180⟩ : Wind α) g (by norm_num)
  have hb := wind_value_bounds (α := α) (g.draws g.taken)
  refine ⟨windUpdates_holding w0 g, ?_, ?_, ?_, ?_⟩
  · rw [hstep, hchange]
  · rw [hstep, hchange]
  · rw [hstep, hchange]
    exact (gust_bounds _ hb.1 hb.2 _).1
  · rw [hstep, hchange]
    exact (gust_bounds _ hb.1 hb.2 _).2

/-- The expression `rand() % 3 + 1` is one of 1, 2, 3. -/
theorem tmod_three_succ (r : Nat) :
    (((((r : Nat) : Int).tmod 3 + 1 : Int)) : α) = 1 ∨ (((((r : Nat) : Int).tmod 3 + 1 : Int)) : α) = 2 ∨
      (((((r : Nat) : Int).tmod 3 + 1 : Int)) : α) = 3 := by
  have e := tmod_natCast r 3
  simp only [Nat.cast_ofNat] at e
  rw [e]
  have h : r % 3 = 0 ∨ r % 3 = 1 ∨ r % 3 = 2 := by omega
  rcases h with h | h | h <;> rw [h] <;> norm_num

/-- The expression `rand() % 2 + 1` is one of 1, 2. -/
theorem tmod_two_succ (r : Nat) :
    (((((r : Nat) : Int).tmod 2 + 1 : Int)) : α) = 1 ∨ (((((r : Nat) : Int).tmod 2 + 1 : Int)) : α) = 2 := by
  have e := tmod_natCast r 2
  simp only [Nat.cast_ofNat] at e
  rw [e]
  have h : r % 2 = 0 ∨ r % 2 = 1 := by omega
  rcases h with h | h <;> rw [h] <;> norm_num

/-- Position, accumulator and vertical velocity given by the constructor. -/
theorem construct_fields (x y : α) (g : Rand) :
    (Snowflake.construct x y g).1.position = ⟨x, y⟩ ∧
      (Snowflake.construct x y g).1.acceleration = ⟨0, 0⟩ ∧
      (Snowflake.construct x y g).1.velocity.y
        = (((((g.draws (g.taken + 1) : Nat) : Int).tmod 2 + 1 : Int)) : α) :=
  ⟨rfl, rfl, rfl⟩

/-- One loop pass on a flake that falls (`velocity.y ≥ 1`), has positive depth
and a non-negative accumulated vertical acceleration. -/
theorem tick_falling (sin : α → α) (s : Snowflake α) (t : Tick α) (s1 : Snowflake α)
    (g1 : Rand) (hv : 1 ≤ s.velocity.y) (hd : 0 < s.depth) (ha : 0 ≤ s.acceleration.y)
    (hg : 0 ≤ t.gravity) (hdt : 0 ≤ t.deltaTime) (h : s.tick sin t = some (s1, g1)) :
    1 ≤ s1.velocity.y ∧ s1.acceleration = ⟨0, 0⟩ ∧ s1.depth = s.depth ∧
      (¬ ((s.applyForce ⟨0, t.gravity⟩).integrate sin t.deltaTime t.windForce).position.y
            > (((viewport t.query).2 : Int) : α) →
        s.velocity.y ≤ s1.velocity.y ∧ s1.position.y = s.position.y + s1.velocity.y * t.deltaTime ∧
          (0 < t.deltaTime → s.position.y < s1.position.y)) ∧
      (((s.applyForce ⟨0, t.gravity⟩).integrate sin t.deltaTime t.windForce).position.y
            > (((viewport t.query).2 : Int) : α) →
        s1.position.y = 0 ∧ (s1.velocity.y = 1 ∨ s1.velocity.y = 2 ∨ s1.velocity.y = 3)) := by
  have hacc := update_acceleration sin t.query t.deltaTime t.windForce _ t.rng s1 g1 h
  have hfix := (update_fixed sin t.query t.deltaTime t.windForce _ t.rng s1 g1 h).2.2
  have hinc : 0 ≤ (s.acceleration.y + t.gravity) * t.deltaTime * (1.0 / s.depth) := by
    have : 0 ≤ (1.0 : α) / s.depth := by
      apply div_nonneg _ hd.le
      norm_num
    have : 0 ≤ s.acceleration.y + t.gravity := add_nonneg ha hg
    positivity
  rcases update_cases sin t.query t.deltaTime t.windForce _ t.rng s1 g1 h with
    ⟨hb, hs, _⟩ | ⟨hb, _, hs, _⟩
  · have hvy : s1.velocity.y
        = s.velocity.y + (s.acceleration.y + t.gravity) * t.deltaTime * (1.0 / s.depth) := by
      rw [hs, (wrap_fields _ _).1]
      rfl
    have hpy : s1.position.y = s.position.y + s1.velocity.y * t.deltaTime := by
      rw [hvy, hs, wrap_position_y]
      rfl
    have hle : s.velocity.y ≤ s1.velocity.y := by rw [hvy]; linarith
    refine ⟨hv.trans hle, hacc, hfix, fun _ => ⟨hle, hpy, fun hpos => ?_⟩, fun hb' => absurd hb' hb⟩
    have : 0 < s1.velocity.y * t.deltaTime := mul_pos (lt_of_lt_of_le one_pos (hv.trans hle)) hpos
    rw [hpy]
    linarith
  · have hvy : s1.velocity.y
        = (((((t.rng.draws (t.rng.taken + 2) : Nat) : Int).tmod 3 + 1 : Int)) : α) := by
      rw [hs, (wrap_fields _ _).1]
    have hpy : s1.position.y = 0 := by
      rw [hs, wrap_position_y]
    have h3 := tmod_three_succ (α := α) (t.rng.draws (t.rng.taken + 2))
    rw [← hvy] at h3
    refine ⟨?_, hacc, hfix, fun hb' => absurd hb hb', fun _ => ⟨hpy, h3⟩⟩
    rcases h3 with h3 | h3 | h3 <;> rw [h3] <;> norm_num

/-- The invariant `velocity.y ≥ 1`, zero accumulator, unchanged depth, along loop passes. -/
theorem ticks_falling (sin : α → α) (ts : List (Tick α)) :
    ∀ (s s1 : Snowflake α), 1 ≤ s.velocity.y → s.acceleration = ⟨0, 0⟩ → 0 < s.depth →
      (∀ t ∈ ts, 0 ≤ t.gravity ∧ 0 ≤ t.deltaTime) → s.ticks sin ts = some s1 →
      1 ≤ s1.velocity.y ∧ s1.acceleration = ⟨0, 0⟩ ∧ s1.depth = s.depth := by
  induction ts with
  | nil =>
    intro s s1 hv ha _ _ h
    simp only [Snowflake.ticks, Option.some.injEq] at h
    rw [← h]
    exact ⟨hv, ha, rfl⟩
  | cons t ts ih =>
    intro s s1 hv ha hd hts h
    simp only [Snowflake.ticks, Option.bind_eq_some, Option.map_eq_some', Prod.exists,
      exists_and_right, exists_eq_right] at h
    obtain ⟨s2, ⟨g2, h2⟩, h3⟩ := h
    have ha0 : 0 ≤ s.acceleration.y := by rw [ha]
    have ht := hts t (List.mem_cons_self _ _)
    obtain ⟨hv2, ha2, hd2, _⟩ := tick_falling sin s t s2 g2 hv hd ha0 ht.1 ht.2 h2
    have := ih s2 s1 hv2 ha2 (by rw [hd2]; exact hd)
      (fun t' ht' => hts t' (List.mem_cons_of_mem _ ht')) h3
    exact ⟨this.1, this.2.1, by rw [this.2.2, hd2]⟩

/-- C10 (always falling), amended with the accumulator hypothesis.  A newly
constructed flake has `velocity.y` in `{1, 2}`.  A loop pass
`applyForce({0, g}); update(deltaTime, windForce)` returns on every viewport
of non-zero width, and, for a flake with `velocity.y ≥ 1`, `depth > 0` and
accumulated `acceleration.y ≥ 0`, with `g ≥ 0` and `deltaTime ≥ 0`, it yields
`velocity.y ≥ 1` again: without vertical wrap `velocity.y` does not decrease
and `position.y` strictly increases when `deltaTime > 0`, with vertical wrap
`velocity.y` is one of 1, 2, 3.  Hence after any sequence of such passes on a
constructed flake `velocity.y ≥ 1`, `depth > 0` and the accumulator is zero. -/
theorem always_falling (sin : α → α) :
    (∀ (x y : α) (g : Rand), (Snowflake.construct x y g).1.velocity.y = 1 ∨
        (Snowflake.construct x y g).1.velocity.y = 2) ∧
    (∀ (s : Snowflake α) (t : Tick α), (viewport t.query).1 ≠ 0 →
        ∃ s1 g1, s.tick sin t = some (s1, g1)) ∧
    (∀ (s : Snowflake α) (t : Tick α) (s1 : Snowflake α) (g1 : Rand),
        1 ≤ s.velocity.y → 0 < s.depth → 0 ≤ s.acceleration.y →
        0 ≤ t.gravity → 0 ≤ t.deltaTime → s.tick sin t = some (s1, g1) →
        1 ≤ s1.velocity.y ∧
        (¬ ((s.applyForce ⟨0, t.gravity⟩).integrate sin t.deltaTime t.windForce).position.y
              > (((viewport t.query).2 : Int) : α) →
          s.velocity.y ≤ s1.velocity.y ∧ (0 < t.deltaTime → s.position.y < s1.position.y)) ∧
        (((s.applyForce ⟨0, t.gravity⟩).integrate sin t.deltaTime t.windForce).position.y
              > (((viewport t.query).2 : Int) : α) →
          s1.velocity.y = 1 ∨ s1.velocity.y = 2 ∨ s1.velocity.y = 3)) ∧
    (∀ (x y : α) (g : Rand) (ts : List (Tick α)) (s1 : Snowflake α),
        (∀ t ∈ ts, 0 ≤ t.gravity ∧ 0 ≤ t.deltaTime) →
        (Snowflake.construct x y g).1.ticks sin ts = some s1 →
        1 ≤ s1.velocity.y ∧ 0 < s1.depth ∧ s1.acceleration = ⟨0, 0⟩) := by
  refine ⟨?_, ?_, ?_, ?_⟩
  · intro x y g
    rw [(construct_fields x y g).2.2]
    exact tmod_two_succ _
  · intro s t hW
    exact update_isSome sin t.query t.deltaTime t.windForce _ t.rng hW
  · intro s t s1 g1 hv hd ha hg hdt h
    obtain ⟨h1, _, _, h4, h5⟩ := tick_falling sin s t s1 g1 hv hd ha hg hdt h
    exact ⟨h1, fun hb => ⟨(h4 hb).1, (h4 hb).2.2⟩, fun hb => (h5 hb).2⟩
  · intro x y g ts s1 hts h
    obtain ⟨_, _, _, _, hpos, _⟩ := construct_depth_range x y g
    have hv : (1 : α) ≤ (Snowflake.construct x y g).1.velocity.y := by
      rw [(construct_fields x y g).2.2]
      rcases tmod_two_succ (α := α) (g.draws (g.taken + 1)) with e | e <;> rw [e]
      · norm_num
    obtain ⟨h1, h2, h3⟩ := ticks_falling sin ts _ s1 hv (construct_fields x y g).2.1 hpos hts h
    exact ⟨h1, by rw [h3]; exact hpos, h2⟩

/-- C10 fails without the accumulator hypothesis: a flake with
`velocity.y = 1`, `depth = 1` and accumulated acceleration `(0, -10)` leaves the
loop pass with gravity `0.005` and `deltaTime = 1` at `velocity.y = -8.995 < 1`,
and its `position.y` went from `50` down to `41.005`. -/
theorem always_falling_counterexample :
    ∃ s1 g1,
      Snowflake.tick Real.sin
          (⟨⟨100, 50⟩, ⟨0, 1⟩, ⟨0, -10⟩, 6, 0, 1⟩ : Snowflake ℝ)
          ⟨0.005, 1, 0, ⟨0, 800, 600⟩, ⟨fun _ => 0, 0⟩⟩ = some (s1, g1) ∧
        s1.velocity.y = -8.995 ∧ ¬ (1 ≤ s1.velocity.y) ∧ s1.position.y = 41.005 ∧
        ¬ ((50 : ℝ) < s1.position.y) := by
  refine ⟨_, _, update_of_not_below _ _ _ _ _ _ ?_, ?_⟩
  · simp [Snowflake.integrate, Snowflake.applyForce, Vector2.addAssign, Vector2.mul, viewport,
      getDisplayResolution]
    norm_num
  · simp [Snowflake.integrate, Snowflake.applyForce, Vector2.addAssign, Vector2.mul, wrap_position_y,
      (wrap_fields _ _).1]
    norm_num

/-- The horizontal position after the integration step. -/
theorem integrate_position_x (sin : α → α) (deltaTime windForce : α) (s : Snowflake α) :
    (s.integrate sin deltaTime windForce).position.x
      = s.position.x
        + (windForce + sin ((s.position.y + s.oscillationOffset) * 0.02) * 1.5) * deltaTime :=
  rfl

/-- C2 (horizontal wrap), amended.  On a viewport of width `W ≥ 0`, with
`deltaTime = 1` and a flake that does not cross the bottom edge in the call: a
flake at `position.x = W + 50 + 1` ends at `position.x = -50` provided the
horizontal velocity of the call, `windForce + oscillation`, is above `-1`; a
flake at `position.x = -50 - 1` ends at `position.x = W + 50` provided that
velocity is below `1`.  (The position is integrated before the wrap test.) -/
theorem horizontal_wrap (sin : α → α) (q : DisplayQuery) (W H : Int)
    (hq : viewport q = (W, H)) (hW : 0 ≤ W) (windForce : α) (s : Snowflake α) (g : Rand)
    (hno : ¬ (s.integrate sin 1 windForce).position.y > (H : α)) :
    (s.position.x = (W : α) + 50 + 1 →
        -1 < windForce + sin ((s.position.y + s.oscillationOffset) * 0.02) * 1.5 →
        ∃ s1, s.update sin q 1 windForce g = some (s1, g) ∧ s1.position.x = -50) ∧
      (s.position.x = -50 - 1 →
        windForce + sin ((s.position.y + s.oscillationOffset) * 0.02) * 1.5 < 1 →
        ∃ s1, s.update sin q 1 windForce g = some (s1, g) ∧ s1.position.x = (W : α) + 50) := by
  have hW1 := viewport_fst hq
  have hH1 := viewport_snd hq
  have hWα : (0 : α) ≤ (W : α) := by exact_mod_cast hW
  have hno' : ¬ (s.integrate sin 1 windForce).position.y > (((viewport q).2 : Int) : α) := by
    rw [hH1]; exact hno
  have hx := integrate_position_x sin 1 windForce s
  rw [mul_one] at hx
  constructor
  · intro hpos hvel
    refine ⟨_, update_of_not_below sin q 1 windForce s g hno', ?_⟩
    rw [hW1]
    have h1 : ¬ (s.integrate sin 1 windForce).position.x < (((-50 : Int)) : α) := by
      push_cast
      rw [hx, hpos]
      apply not_lt.mpr
      linarith
    have h2 : (s.integrate sin 1 windForce).position.x > (((W + 50 : Int)) : α) := by
      push_cast
      rw [hx, hpos]
      linarith
    simp only [Snowflake.wrap, if_neg h1, if_pos h2]
    push_cast
    rfl
  · intro hpos hvel
    refine ⟨_, update_of_not_below sin q 1 windForce s g hno', ?_⟩
    rw [hW1]
    have h1 : (s.integrate sin 1 windForce).position.x < (((-50 : Int)) : α) := by
      push_cast
      rw [hx, hpos]
      linarith
    simp only [Snowflake.wrap, if_pos h1]
    push_cast
    rfl

/-- C2 fails as stated.  In an 800x600 viewport a flake at `x = 800 + 50 + 1`
under wind `-2` ends at `x = 849`, not `-50`; a flake at `x = -50 - 1` under wind
`2` ends at `x = -49`, not `850`; and with a width of `-200` and no wind a flake
at `x = -200 + 50 + 1` ends at `x = -150`, not `-50`. -/
theorem horizontal_wrap_counterexample :
    (∃ s1 g1,
        Snowflake.update Real.sin ⟨0, 800, 600⟩ 1 (-2)
          (⟨⟨800 + 50 + 1, 0⟩, ⟨0, 1⟩, ⟨0, 0⟩, 6, 0, 1⟩ : Snowflake ℝ) ⟨fun _ => 0, 0⟩
            = some (s1, g1) ∧
        s1.position = ⟨849, 1⟩ ∧ s1.position.x ≠ -50) ∧
      (∃ s1 g1,
        Snowflake.update Real.sin ⟨0, 800, 600⟩ 1 2
          (⟨⟨-50 - 1, 0⟩, ⟨0, 1⟩, ⟨0, 0⟩, 6, 0, 1⟩ : Snowflake ℝ) ⟨fun _ => 0, 0⟩
            = some (s1, g1) ∧
        s1.position = ⟨-49, 1⟩ ∧ s1.position.x ≠ 800 + 50) ∧
      (∃ s1 g1,
        Snowflake.update Real.sin ⟨0, -200, 600⟩ 1 0
          (⟨⟨-200 + 50 + 1, 0⟩, ⟨0, 1⟩, ⟨0, 0⟩, 6, 0, 1⟩ : Snowflake ℝ) ⟨fun _ => 0, 0⟩
            = some (s1, g1) ∧
        s1.position = ⟨-150, 1⟩ ∧ s1.position.x ≠ -50) := by
  refine ⟨⟨_, _, update_of_not_below _ _ _ _ _ _ ?_, ?_⟩,
    ⟨_, _, update_of_not_below _ _ _ _ _ _ ?_, ?_⟩,
    ⟨_, _, update_of_not_below _ _ _ _ _ _ ?_, ?_⟩⟩
  · simp [Snowflake.integrate, Vector2.addAssign, Vector2.mul, viewport, getDisplayResolution]
  · simp [Snowflake.integrate, Vector2.addAssign, Vector2.mul, viewport, getDisplayResolution,
      Snowflake.wrap]
    norm_num
  · simp [Snowflake.integrate, Vector2.addAssign, Vector2.mul, viewport, getDisplayResolution]
  · simp [Snowflake.integrate, Vector2.addAssign, Vector2.mul, viewport, getDisplayResolution,
      Snowflake.wrap]
    norm_num
  · simp [Snowflake.integrate, Vector2.addAssign, Vector2.mul, viewport, getDisplayResolution]
  · simp [Snowflake.integrate, Vector2.addAssign, Vector2.mul, viewport, getDisplayResolution,
      Snowflake.wrap]
    norm_num

/-- The degree-seven Taylor polynomial of the sine at `1` is `4241/5040`; the
remainder of the exponential series bounds the error. -/
theorem sin_one_approx : |Real.sin 1 - 4241 / 5040| ≤ 9 / 322560 := by
  have hb := Complex.exp_bound (x := Complex.I) (by simp) (n := 8) (by norm_num)
  have h3 : Complex.I ^ 3 = -Complex.I := by
    rw [pow_succ, Complex.I_sq]; ring
  have h4 : Complex.I ^ 4 = 1 := Complex.I_pow_four
  have h5 : Complex.I ^ 5 = Complex.I := by
    rw [pow_succ, h4]; ring
  have h6 : Complex.I ^ 6 = -1 := by
    rw [pow_succ, h5, ← sq, Complex.I_sq]
  have h7 : Complex.I ^ 7 = -Complex.I := by
    rw [pow_succ, h6]; ring
  have h1 : (Complex.exp Complex.I).im = Real.sin 1 := by
    have := Complex.exp_ofReal_mul_I_im 1
    simpa using this
  have him : (Complex.exp Complex.I
      - ∑ m ∈ Finset.range 8, Complex.I ^ m / (m.factorial : ℂ)).im
      = Real.sin 1 - 4241 / 5040 := by
    rw [Complex.sub_im, h1]
    simp only [Finset.sum_range_succ, Finset.sum_range_zero, Nat.factorial, h3, h4, h5, h6, h7,
      Complex.I_sq, pow_zero, pow_one]
    simp
    norm_num
  have hle := Complex.abs_im_le_abs
    (Complex.exp Complex.I - ∑ m ∈ Finset.range 8, Complex.I ^ m / (m.factorial : ℂ))
  rw [him] at hle
  refine hle.trans (hb.trans ?_)
  simp [Nat.factorial]
  norm_num

/-- The oscillation term of the reference scenario, `sin(1) * 1.5`, is `1.262` to three decimals. -/
theorem oscillation_approx : |Real.sin (50 * 0.02) * 1.5 - 1.262| < 0.001 := by
  have e : (50 : ℝ) * 0.02 = 1 := by norm_num
  rw [e]
  have h := abs_le.mp sin_one_approx
  rw [abs_lt]
  constructor <;> norm_num <;> linarith [h.1, h.2]

/-- The reference scenario evaluated: the flake after `applyForce({0, 0.005})`
and `update(1, 0)` in an 800x600 viewport. -/
theorem scenario_eval (size : ℝ) (g : Rand) :
    ((⟨⟨100, 50⟩, ⟨0, 1⟩, ⟨0, 0⟩, size, 0, 1.0⟩ : Snowflake ℝ).applyForce ⟨0, 0.005⟩).update
        Real.sin ⟨0, 800, 600⟩ 1 0 g
      = some (⟨⟨100 + Real.sin (50 * 0.02) * 1.5, 51.005⟩, ⟨Real.sin (50 * 0.02) * 1.5, 1.005⟩,
          ⟨0, 0⟩, size, 0, 1.0⟩, g) := by
  rw [update_of_not_below]
  · have h1 : ¬ ((100 : ℝ) + Real.sin 1 * (3 / 2) < -50) := by
      apply not_lt.mpr
      linarith [Real.neg_one_le_sin 1]
    have h2 : ¬ ((850 : ℝ) < 100 + Real.sin 1 * (3 / 2)) := by
      apply not_lt.mpr
      linarith [Real.sin_le_one 1]
    simp [Snowflake.integrate, Snowflake.applyForce, Vector2.addAssign, Vector2.mul, viewport,
      getDisplayResolution, Snowflake.wrap]
    norm_num
    rw [if_neg h1, if_neg h2]
  · simp [Snowflake.integrate, Snowflake.applyForce, Vector2.addAssign, Vector2.mul, viewport,
      getDisplayResolution]
    norm_num

/-- C3 (reference scenario), amended.  The flake at `(100, 50)` with velocity
`(0, 1)`, depth `1.0`, oscillation offset `0` and zero acceleration, in an
800x600 viewport, after `applyForce({0, 0.005})` and `update(1, 0)`, has
`velocity.y = 1.005`, `position.y = 51.005` and
`position.x = 100 + sin(50 * 0.02) * 1.5`; the oscillation term is `1.262` and
`position.x` is `101.262`, both to within `0.001`. -/
theorem reference_scenario (size : ℝ) (g : Rand) :
    ∃ s1,
      ((⟨⟨100, 50⟩, ⟨0, 1⟩, ⟨0, 0⟩, size, 0, 1.0⟩ : Snowflake ℝ).applyForce ⟨0, 0.005⟩).update
          Real.sin ⟨0, 800, 600⟩ 1 0 g = some (s1, g) ∧
        s1.velocity.y = 1.005 ∧ s1.position.y = 51.005 ∧
        s1.position.x = 100 + Real.sin (50 * 0.02) * 1.5 ∧
        |Real.sin (50 * 0.02) * 1.5 - 1.262| < 0.001 ∧ |s1.position.x - 101.262| < 0.001 := by
  refine ⟨_, scenario_eval size g, rfl, rfl, rfl, oscillation_approx, ?_⟩
  have h := abs_lt.mp oscillation_approx
  show |(100 + Real.sin (50 * 0.02) * 1.5) - 101.262| < 0.001
  rw [abs_lt]
  constructor <;> norm_num at h ⊢ <;> linarith [h.1, h.2]

/-- C3 fails as stated: in the reference scenario the oscillation term
`sin(50 * 0.02) * 1.5` is more than `0.23` away from `1.497`, and `position.x`
more than `0.23` away from `101.497`. -/
theorem reference_scenario_counterexample :
    ∃ s1 g1,
      ((⟨⟨100, 50⟩, ⟨0, 1⟩, ⟨0, 0⟩, 6, 0, 1.0⟩ : Snowflake ℝ).applyForce ⟨0, 0.005⟩).update
          Real.sin ⟨0, 800, 600⟩ 1 0 ⟨fun _ => 0, 0⟩ = some (s1, g1) ∧
        s1.position.x = 100 + Real.sin (50 * 0.02) * 1.5 ∧
        0.23 < |Real.sin (50 * 0.02) * 1.5 - 1.497| ∧ 0.23 < |s1.position.x - 101.497| := by
  have h := abs_lt.mp oscillation_approx
  refine ⟨_, _, scenario_eval 6 _, rfl, ?_, ?_⟩
  · rw [lt_abs]
    right
    norm_num at h ⊢
    linarith [h.2]
  · show 0.23 < |(100 + Real.sin (50 * 0.02) * 1.5) - 101.497|
    rw [lt_abs]
    right
    norm_num at h ⊢
    linarith [h.2]

/-- C1 at a concrete input: an 800x600 viewport, a flake at `(100, 601)` with
velocity `(0, 1)` and depth `1`, and a generator whose next value is `2003`. -/
theorem vertical_wrap_witness :
    ∃ s1 g1,
      Snowflake.update Real.sin ⟨0, 800, 600⟩ 1 0
          (⟨⟨100, 600 + 1⟩, ⟨0, 1⟩, ⟨0, 0⟩, 6, 0, 1⟩ : Snowflake ℝ) ⟨fun n => 7 * n + 2003, 0⟩
        = some (s1, g1) ∧
      s1.position.y = 0 ∧ 0 ≤ s1.position.x ∧ s1.position.x < ((800 : Int) : ℝ) ∧
      s1.position.x = (((((7 * 0 + 2003 : Nat) : Nat) : Int).tmod 800 : Int) : ℝ) :=
  vertical_wrap Real.sin ⟨0, 800, 600⟩ 800 600 rfl (by norm_num) 1 0 (by norm_num)
    ⟨⟨100, 600 + 1⟩, ⟨0, 1⟩, ⟨0, 0⟩, 6, 0, 1⟩ ⟨fun n => 7 * n + 2003, 0⟩
    (by norm_num) (by norm_num) (by norm_num) (by norm_num)

/-- C2 (amended) at concrete inputs: in an 800x600 viewport without wind, a
flake at `x = 851` ends at `-50` and a flake at `x = -51` ends at `850`. -/
theorem horizontal_wrap_witness :
    (∃ s1, Snowflake.update Real.sin ⟨0, 800, 600⟩ 1 0
          (⟨⟨800 + 50 + 1, 0⟩, ⟨0, 1⟩, ⟨0, 0⟩, 6, 0, 1⟩ : Snowflake ℝ) ⟨fun _ => 0, 0⟩
        = some (s1, ⟨fun _ => 0, 0⟩) ∧ s1.position.x = -50) ∧
      (∃ s1, Snowflake.update Real.sin ⟨0, 800, 600⟩ 1 0
          (⟨⟨-50 - 1, 0⟩, ⟨0, 1⟩, ⟨0, 0⟩, 6, 0, 1⟩ : Snowflake ℝ) ⟨fun _ => 0, 0⟩
        = some (s1, ⟨fun _ => 0, 0⟩) ∧ s1.position.x = ((800 : Int) : ℝ) + 50) :=
  ⟨(horizontal_wrap Real.sin ⟨0, 800, 600⟩ 800 600 rfl (by norm_num) 0
      ⟨⟨800 + 50 + 1, 0⟩, ⟨0, 1⟩, ⟨0, 0⟩, 6, 0, 1⟩ ⟨fun _ => 0, 0⟩
      (by simp [Snowflake.integrate, Vector2.addAssign, Vector2.mul])).1
      (by norm_num) (by simp),
   (horizontal_wrap Real.sin ⟨0, 800, 600⟩ 800 600 rfl (by norm_num) 0
      ⟨⟨-50 - 1, 0⟩, ⟨0, 1⟩, ⟨0, 0⟩, 6, 0, 1⟩ ⟨fun _ => 0, 0⟩
      (by simp [Snowflake.integrate, Vector2.addAssign, Vector2.mul])).2
      (by norm_num) (by simp)⟩

/-- C7 at a concrete input: two flakes that differ in `velocity.x` (`0` and `7`)
and `acceleration.x` (`0` and `-3`) only. -/
theorem horizontal_force_decorative_witness :
    Snowflake.update Real.sin ⟨0, 800, 600⟩ 1 (1 / 2)
        (⟨⟨100, 50⟩, ⟨0, 1⟩, ⟨0, 2⟩, 6, 30, 2⟩ : Snowflake ℝ) ⟨fun _ => 0, 0⟩
      = Snowflake.update Real.sin ⟨0, 800, 600⟩ 1 (1 / 2)
        (⟨⟨100, 50⟩, ⟨7, 1⟩, ⟨-3, 2⟩, 6, 30, 2⟩ : Snowflake ℝ) ⟨fun _ => 0, 0⟩ :=
  (horizontal_force_decorative Real.sin ⟨0, 800, 600⟩ 1 (1 / 2)
    ⟨⟨100, 50⟩, ⟨0, 1⟩, ⟨0, 2⟩, 6, 30, 2⟩ ⟨⟨100, 50⟩, ⟨7, 1⟩, ⟨-3, 2⟩, 6, 30, 2⟩
    ⟨fun _ => 0, 0⟩ rfl rfl rfl rfl rfl rfl).1

/-- C9 at a concrete input: a flake seeded off screen at `x = -400`. -/
theorem looping_band_witness :
    ∃ s1 g1,
      Snowflake.update Real.sin ⟨0, 800, 600⟩ 1 0
          (⟨⟨-400, 50⟩, ⟨0, 1⟩, ⟨0, 0⟩, 6, 0, 1⟩ : Snowflake ℝ) ⟨fun _ => 0, 0⟩
        = some (s1, g1) ∧
      -50 ≤ s1.position.x ∧ s1.position.x ≤ ((800 : Int) : ℝ) + 50 ∧
      s1.position.y ≤ ((600 : Int) : ℝ) :=
  looping_band Real.sin ⟨0, 800, 600⟩ 800 600 rfl (by norm_num) (by norm_num) 1 0
    ⟨⟨-400, 50⟩, ⟨0, 1⟩, ⟨0, 0⟩, 6, 0, 1⟩ ⟨fun _ => 0, 0⟩

/-- C4 at a concrete input: 180 executions from `(0.25, 0)` leave the wind `0.25`
with a counter of `180`, and the 181st resets the counter. -/
theorem wind_cycle_witness :
    windUpdates 180 (⟨0.25, 0⟩ : Wind ℝ) ⟨fun n => 7 * n + 3, 0⟩
        = (⟨0.25, ((180 : Nat) : Int)⟩, ⟨fun n => 7 * n + 3, 0⟩) ∧
      (windUpdates 181 (⟨0.25, 0⟩ : Wind ℝ) ⟨fun n => 7 * n + 3, 0⟩).1.windChangeTimer = 0 :=
  ⟨(wind_cycle (0.25 : ℝ) ⟨fun n => 7 * n + 3, 0⟩).1 180 (le_refl 180),
   (wind_cycle (0.25 : ℝ) ⟨fun n => 7 * n + 3, 0⟩).2.1⟩

/-- C5 at a concrete input: two forces accumulated, then one `update` in an
800x600 viewport. -/
theorem accumulator_reset_witness :
    ∃ s1 g1,
      (([⟨1, 2⟩, ⟨-3, 4⟩] : List (Vector2 ℝ)).foldl Snowflake.applyForce
          (⟨⟨100, 50⟩, ⟨0, 1⟩, ⟨0, 0⟩, 6, 0, 1⟩ : Snowflake ℝ)).update Real.sin
          ⟨0, 800, 600⟩ 1 0 ⟨fun _ => 0, 0⟩ = some (s1, g1) ∧
        s1.acceleration = ⟨0, 0⟩ := by
  have h := accumulator_reset Real.sin ⟨0, 800, 600⟩ 1 0
    (⟨⟨100, 50⟩, ⟨0, 1⟩, ⟨0, 0⟩, 6, 0, 1⟩ : Snowflake ℝ) [⟨1, 2⟩, ⟨-3, 4⟩] ⟨fun _ => 0, 0⟩
  obtain ⟨s1, g1, hs⟩ := h.1 (by decide)
  exact ⟨s1, g1, hs, h.2 s1 g1 hs⟩

/-- C6 at a concrete input: a constructed flake after one `applyForce` and one
`update` still has a positive depth. -/
theorem depth_invariant_witness :
    ∃ s1,
      (Snowflake.construct (100 : ℝ) 50 ⟨fun n => 7 * n + 3, 0⟩).1.calls Real.sin
          [.applyForce ⟨0, 0.005⟩, .update ⟨0, 800, 600⟩ 1 0 ⟨fun n => 7 * n + 3, 5⟩]
        = some s1 ∧ 0 < s1.depth := by
  obtain ⟨s1, g1, hs⟩ := update_isSome Real.sin ⟨0, 800, 600⟩ 1 0
    ((Snowflake.construct (100 : ℝ) 50 ⟨fun n => 7 * n + 3, 0⟩).1.applyForce ⟨0, 0.005⟩)
    ⟨fun n => 7 * n + 3, 5⟩ (by decide)
  have hc : (Snowflake.construct (100 : ℝ) 50 ⟨fun n => 7 * n + 3, 0⟩).1.calls Real.sin
      [.applyForce ⟨0, 0.005⟩, .update ⟨0, 800, 600⟩ 1 0 ⟨fun n => 7 * n + 3, 5⟩]
      = some s1 := by
    simp [Snowflake.calls, Snowflake.call, hs]
  exact ⟨s1, hc, ((depth_invariant Real.sin).2.2.2 _ _ _ _ s1 hc).2.1⟩

/-- C8 at concrete inputs: a holding step from a counter of `5`, and a changing
step from a counter of `180`. -/
theorem wind_step_witness :
    windUpdate (⟨0.25, 5⟩ : Wind ℝ) ⟨fun n => 7 * n + 3, 0⟩
        = (⟨0.25, 5 + 1⟩, ⟨fun n => 7 * n + 3, 0⟩) ∧
      (windUpdate (⟨0.25, 180⟩ : Wind ℝ) ⟨fun n => 7 * n + 3, 0⟩).1.windChangeTimer = 0 :=
  ⟨(wind_step (⟨0.25, 5⟩ : Wind ℝ) ⟨fun n => 7 * n + 3, 0⟩).1 (by norm_num),
   by rw [(wind_step (⟨0.25, 180⟩ : Wind ℝ) ⟨fun n => 7 * n + 3, 0⟩).2.1 (by norm_num)]⟩

/-- C10 (amended) at a concrete input: one loop pass of `main` (gravity `0.005`,
time step `1`) on a flake with `velocity.y = 1` and an empty accumulator. -/
theorem always_falling_witness :
    ∃ s1 g1,
      Snowflake.tick Real.sin (⟨⟨100, 50⟩, ⟨0, 1⟩, ⟨0, 0⟩, 6, 0, 1⟩ : Snowflake ℝ)
          ⟨0.005, 1, 0, ⟨0, 800, 600⟩, ⟨fun _ => 0, 0⟩⟩ = some (s1, g1) ∧
        1 ≤ s1.velocity.y := by
  obtain ⟨s1, g1, hs⟩ := (always_falling Real.sin).2.1
    (⟨⟨100, 50⟩, ⟨0, 1⟩, ⟨0, 0⟩, 6, 0, 1⟩ : Snowflake ℝ)
    ⟨0.005, 1, 0, ⟨0, 800, 600⟩, ⟨fun _ => 0, 0⟩⟩ (by decide)
  exact ⟨s1, g1, hs, ((always_falling Real.sin).2.2.1 _ _ s1 g1 (by norm_num) (by norm_num)
    (by norm_num) (by norm_num) (by norm_num) hs).1⟩

end Verification
end Snow
